import Mathlib

/-!
# INET: IPv4 / IPv6 network values and reverse names

A shallow embedding of `inet.cc` / `inet.hh`: the byte-array helpers of
`array_ipv6_`, the mask derivation `INET::init_mask_`, construction and
assignment, the comparison and containment operators, and the reverse-name
class `ARPA`.

Conventions of the embedding.

* `uint64_t`, `size_t` and `unsigned long` are natural numbers reduced
  modulo `2 ^ 64` wherever the C++ arithmetic can wrap.
* `address_v4` is the number returned by `to_ulong()`; `address_v6` is the
  sixteen bytes returned by `to_bytes()`, index 0 being the most significant
  byte.
* `std::array::operator[]` is unchecked.  An indexed access outside `0..15`
  is recorded; a store outside the array leaves the sixteen bytes as they
  are, and a load outside the array ends the run with a fault.
* A text handed to the address library, or returned by it, is represented by
  the address it denotes; the reverse name held by `ARPA` is a sequence of
  characters.
* A function that may throw returns `Except Fault _`.  Where the object that
  a throwing member call leaves behind matters, the call returns a `Call`.
-/

/-! ## Machine arithmetic -/

/-- Subtraction of two `uint64_t` values. -/
def sub64 (a b : Nat) : Nat := (a + 2 ^ 64 - b) % 2 ^ 64

/-- Addition of two `uint64_t` values. -/
def add64 (a b : Nat) : Nat := (a + b) % 2 ^ 64

/-- Auxiliary recursion for `floorLog2`; the first argument bounds the number of halvings. -/
def floorLog2Aux : Nat → Nat → Nat
  | 0, _ => 0
  | fuel + 1, x => if x < 2 then 0 else floorLog2Aux fuel (x / 2) + 1

/-- Value of `std::log2(x)` after conversion to an unsigned integer, for
`1 ≤ x < 2 ^ 64`: the conversion truncates, and the logarithm of an integer
of at most 32 bits is far enough from the next integer for the truncation to
be the integer logarithm. -/
def floorLog2 (x : Nat) : Nat := floorLog2Aux 64 x

/-- Ways in which a call can end without a value. -/
inductive Fault
  /-- Thrown `std::length_error`. -/
  | length_error
  /-- Thrown `std::bad_cast`. -/
  | bad_cast
  /-- Load from `mask[index]` with `index` outside `0..15`. -/
  | out_of_bounds (index : Nat)
  /-- Conversion of `log2(0)` (minus infinity) to an unsigned integer. -/
  | undefined_conversion
  /-- The bound on loop iterations given to the model was used up. -/
  | out_of_fuel
  /-- Thrown `boost::system::system_error`: a text did not parse as an address. -/
  | system_error
  deriving DecidableEq, Repr

deriving instance DecidableEq for Except

/-! ## `array_ipv6_` -/

/-- Modelled from the spec: `address_v6` and its `bytes_type` are declared by
the address library, outside the repository; section 3 of the specification
gives an IPv6 address as a 16-byte value in network order, so it is the
sixteen bytes of `to_bytes()`, index 0 first. -/
abbrev bytes_type := Fin 16 → Nat

/-- Sixteen bytes given as a list; missing positions are zero. -/
def bytes_of_list (l : List Nat) : bytes_type := fun i => l.getD i.val 0

/-- Effect of `a[i] = v` on the sixteen bytes of `a` (`v` truncated to a byte). -/
def store (a : bytes_type) (i v : Nat) : bytes_type :=
  fun j => if j.val = i then v % 256 else a j

/-- Value of `a[i]` for `i` in range; positions outside the array read as zero. -/
def load (a : bytes_type) (i : Nat) : Nat :=
  if h : i < 16 then a ⟨i, h⟩ else 0

/-- Result of running `make_mask`: the array returned and the indices used
in `mask[i]` stores, in program order. -/
structure MaskRun where
  mask : bytes_type
  writes : List Nat

/-- Result of running `get_masklen`: the indices used in `mask[i]` loads, in
program order, and the value returned (or the fault that ended the run). -/
structure ScanRun where
  reads : List Nat
  outcome : Except Fault Nat

namespace array_ipv6_

/-- The loop `for (size_t i = mask.size(); i > 0; i--, masklen -= 8)` of
`make_mask`, started at `i`; returns the final `masklen` with the run. -/
def make_mask_loop : Nat → Nat → MaskRun → Nat × MaskRun
  | 0, masklen, r => (masklen, r)
  | i + 1, masklen, r =>
    if masklen ≥ 8 then
      make_mask_loop i (sub64 masklen 8) ⟨store r.mask (i + 1) 0, r.writes ++ [i + 1]⟩
    else
      (masklen,
        ⟨store r.mask (i + 1) (load r.mask (i + 1) &&& (0xFF <<< masklen)),
          r.writes ++ [i + 1]⟩)

/-- The whole body of `make_mask`, with the indices it stores to. -/
def make_mask_run (masklen : Nat) : MaskRun :=
  let p := make_mask_loop 16 masklen ⟨fun _ => 0xFF, []⟩
  if p.1 ≥ 8 then
    ⟨store p.2.mask 0 0, p.2.writes ++ [0]⟩
  else
    ⟨store p.2.mask 0 (load p.2.mask 0 &&& (0xFF <<< p.1)), p.2.writes ++ [0]⟩

/-- The array returned by `array_ipv6_::make_mask`. -/
def make_mask (masklen : Nat) : bytes_type := (make_mask_run masklen).mask

/-- The value of `mask.size()`. -/
def mask_size : Nat := 16

/-- The loop `for (size_t i = 0; mask.size(); i--)` of `get_masklen`, at most
`fuel` iterations of it. -/
def get_masklen_loop (mask : bytes_type) : Nat → Nat → Nat → List Nat → ScanRun
  | 0, _, _, reads => ⟨reads, .error .out_of_fuel⟩
  | fuel + 1, i, masklen, reads =>
    if mask_size = 0 then ⟨reads, .ok masklen⟩
    else if h : i < 16 then
      if mask ⟨i, h⟩ = 0xFF then
        get_masklen_loop mask fuel (sub64 i 1) (add64 masklen 8) (reads ++ [i])
      else if mask ⟨i, h⟩ = 0 then
        ⟨reads ++ [i], .error .undefined_conversion⟩
      else
        ⟨reads ++ [i], .ok (add64 masklen (floorLog2 (mask ⟨i, h⟩)))⟩
    else ⟨reads ++ [i], .error (.out_of_bounds i)⟩

/-- A run of `get_masklen` bounded by `fuel` iterations. -/
def get_masklen_run (fuel : Nat) (mask : bytes_type) : ScanRun :=
  get_masklen_loop mask fuel 0 0 []

/-- The value returned by `array_ipv6_::get_masklen`; seventeen iterations
are allowed, one more than the array has bytes. -/
def get_masklen (mask : bytes_type) : Except Fault Nat :=
  (get_masklen_run 17 mask).outcome

/-- The loop of `logic_and`, `n` iterations of it starting at index `i`. -/
def logic_and_loop (rhs : bytes_type) : Nat → Nat → bytes_type → bytes_type
  | 0, _, rtn => rtn
  | n + 1, i, rtn => logic_and_loop rhs n (i + 1) (store rtn i (load rtn i &&& load rhs i))

/-- Bytewise conjunction `array_ipv6_::logic_and`. -/
def logic_and (lhs rhs : bytes_type) : bytes_type := logic_and_loop rhs 16 0 lhs

/-- The loop of `smaller`, `n` iterations of it starting at index `i`. -/
def smaller_loop (lhs rhs : bytes_type) : Nat → Nat → Bool
  | 0, _ => false
  | n + 1, i =>
    if load lhs i ≠ load rhs i then decide (load lhs i < load rhs i)
    else smaller_loop lhs rhs n (i + 1)

/-- Comparison `array_ipv6_::smaller`. -/
def smaller (lhs rhs : bytes_type) : Bool := smaller_loop lhs rhs 16 0

end array_ipv6_

/-! ## `INET` -/

/-- The value `0xFFFFFFFF` returned by `get_ipv4_bradcast`. -/
def get_ipv4_bradcast : Nat := 0xFFFFFFFF

/-- The enumeration `INET::Type`. -/
inductive INET_Type
  | ipv4
  | ipv6
  deriving DecidableEq, Repr

/-- Enumerator values: `ipv4 = 4`, `ipv6 = 6`. -/
def INET_Type.toNat : INET_Type → Nat
  | .ipv4 => 4
  | .ipv6 => 6

/-- Modelled from the spec: `address` is declared by the address library,
outside the repository; an address is a 4-byte value, held as the number
`to_ulong()` returns, or a 16-byte value. -/
inductive address
  | v4 (a : Nat)
  | v6 (b : bytes_type)

deriving instance DecidableEq for address

/-- The data members of `INET`. -/
structure INET where
  type_ : INET_Type
  ipv4_address_ : Nat
  ipv4_mask_ : Nat
  ipv6_address_ : bytes_type
  ipv6_mask_ : bytes_type
  masklen_ : Nat

namespace INET

/-- An object before its constructor body runs: the member initialisers
give `ipv4_mask_ = 0` and `masklen_ = 0`, the addresses are default
constructed, and the members left indeterminate are shown as `ipv4` and zero
bytes. -/
def blank : INET := ⟨.ipv4, 0, 0, fun _ => 0, fun _ => 0, 0⟩

/-- Model of `INET::init_mask_`. -/
def init_mask_ (self : INET) (masklen : Nat) : Except Fault INET :=
  if self.type_ = .ipv4 then
    if masklen > 32 then .error .length_error
    else
      let m0 := get_ipv4_bradcast
      let m1 := (m0 <<< sub64 32 masklen) % 2 ^ 64
      let m2 := m1 &&& get_ipv4_bradcast
      .ok { self with ipv4_mask_ := m2 }
  else
    if masklen > 128 then .error .length_error
    else .ok { self with ipv6_mask_ := array_ipv6_.make_mask masklen }

/-- Model of `INET::set_ip4_`. -/
def set_ip4_ (self : INET) (ip : Nat) (masklen : Nat) : Except Fault INET :=
  init_mask_ { self with type_ := .ipv4, ipv4_address_ := ip, masklen_ := masklen } masklen

/-- Model of `INET::set_ip6_`. -/
def set_ip6_ (self : INET) (ip : bytes_type) (masklen : Nat) : Except Fault INET :=
  init_mask_ { self with type_ := .ipv6, ipv6_address_ := ip, masklen_ := masklen } masklen

/-- Model of `INET::set_equal_to_(const INET &)`. -/
def set_equal_to_INET (self other : INET) : INET :=
  { self with
    ipv4_address_ := other.ipv4_address_
    ipv4_mask_ := other.ipv4_mask_
    ipv6_address_ := other.ipv6_address_
    ipv6_mask_ := other.ipv6_mask_
    masklen_ := other.masklen_
    type_ := other.type_ }

/-- Model of `INET::set_equal_to_(const address_v4 &)`; `set_ip4_` is called
with its default length 32. -/
def set_equal_to_v4 (self : INET) (ip : Nat) : Except Fault INET := do
  let s ← set_ip4_ self ip 32
  pure { s with ipv4_mask_ := get_ipv4_bradcast }

/-- Model of `INET::set_equal_to_(const address_v6 &)`; `set_ip6_` is called
with its default length 128. -/
def set_equal_to_v6 (self : INET) (ip : bytes_type) : Except Fault INET := do
  let s ← set_ip6_ self ip 128
  pure { s with ipv6_mask_ := array_ipv6_.make_mask s.masklen_ }

/-- Model of `INET::set_equal_to_(const address &)`. -/
def set_equal_to_address (self : INET) (ip : address) : Except Fault INET :=
  match ip with
  | .v4 a => set_equal_to_v4 self a
  | .v6 b => set_equal_to_v6 self b

/-- Model of `INET::set_equal_to_(const std::string &)`.  The text is given by
what the library calls return on it: `ip` is the address parsed from the
part before `/`, and `suffix` is the number `std::stoull` reads after `/`
(`none` when the text has no `/`). -/
def set_equal_to_string (self : INET) (ip : address) (suffix : Option Nat) :
    Except Fault INET :=
  match suffix with
  | some n => do
    let s ← set_equal_to_address self ip
    init_mask_ { s with masklen_ := n } n
  | none => set_equal_to_address self ip

/-- Constructor `INET(const std::string &)`. -/
def of_string (ip : address) (suffix : Option Nat) : Except Fault INET :=
  set_equal_to_string blank ip suffix

/-- Constructor `INET(const address &, uint64_t)`. -/
def of_address (ip : address) (masklen : Nat) : Except Fault INET := do
  let s ← set_equal_to_address blank ip
  init_mask_ { s with masklen_ := masklen } masklen

/-- Constructor `INET(const address_v4 &, uint64_t)`. -/
def of_v4 (ip : Nat) (masklen : Nat) : Except Fault INET := do
  let s ← set_equal_to_v4 blank ip
  init_mask_ { s with masklen_ := masklen } masklen

/-- Constructor `INET(const address_v6 &, uint64_t)`. -/
def of_v6 (ip : bytes_type) (masklen : Nat) : Except Fault INET := do
  let s ← set_equal_to_v6 blank ip
  init_mask_ { s with masklen_ := masklen } masklen

/-- Model of `INET::get_subnet`. -/
def get_subnet (self : INET) : Nat := self.masklen_

/-- Model of `INET::set_subnet`. -/
def set_subnet (self : INET) (masklen : Nat) : Except Fault INET := do
  let s ← init_mask_ self masklen
  pure { s with masklen_ := masklen }

/-- Model of `INET::get_subnet_string`: the address whose text is returned. -/
def get_subnet_string (self : INET) : address :=
  if self.type_ = .ipv4 then .v4 self.ipv4_mask_ else .v6 self.ipv6_mask_

/-- Model of `INET::set_subnet_string`, on the address the text parses to.
`masklen_ = std::log2(ipv4_mask_)` converts a `double` to `uint64_t`. -/
def set_subnet_string (self : INET) (mask : address) : Except Fault INET :=
  match mask with
  | .v4 m =>
    if m = 0 then .error .undefined_conversion
    else .ok { self with ipv4_mask_ := m, masklen_ := floorLog2 m }
  | .v6 b => do
    let n ← array_ipv6_.get_masklen b
    pure { self with ipv6_mask_ := b, masklen_ := n }

/-- Model of `INET::operator==`. -/
def operator_eq (self other : INET) : Bool :=
  if self.type_ ≠ other.type_ ∨ self.masklen_ ≠ other.masklen_ then false
  else if self.type_ = .ipv4 then decide (self.ipv4_address_ = other.ipv4_address_)
  else decide (self.ipv6_address_ = other.ipv6_address_)

/-- Model of `INET::operator!=`. -/
def operator_ne (self other : INET) : Bool := !(operator_eq self other)

/-- Model of `INET::operator<`. -/
def operator_lt (self other : INET) : Bool :=
  if self.type_ ≠ other.type_ then decide (self.type_.toNat < other.type_.toNat)
  else if self.masklen_ ≠ other.masklen_ then decide (self.masklen_ > other.masklen_)
  else if self.type_ = .ipv4 then decide (self.ipv4_address_ < other.ipv4_address_)
  else array_ipv6_.smaller self.ipv6_address_ other.ipv6_address_

/-- Model of `INET::operator>`. -/
def operator_gt (self other : INET) : Bool := operator_lt self other

/-- Model of `INET::operator<=`. -/
def operator_le (self other : INET) : Bool := !(operator_gt self other)

/-- Model of `INET::operator>=`. -/
def operator_ge (self other : INET) : Bool := !(operator_lt self other)

/-- Model of `INET::operator<<=`. -/
def operator_shl_eq (self other : INET) : Bool :=
  if self.type_ ≠ other.type_ then false
  else if self.masklen_ ≤ other.masklen_ then
    if self.type_ = .ipv4 then
      decide ((self.ipv4_address_ &&& other.ipv4_mask_)
        = (other.ipv4_address_ &&& other.ipv4_mask_))
    else
      decide (array_ipv6_.logic_and self.ipv6_address_ other.ipv6_mask_
        = array_ipv6_.logic_and other.ipv6_address_ other.ipv6_mask_)
  else false

/-- Model of `INET::operator<<`. -/
def operator_shl (self other : INET) : Bool :=
  if self.masklen_ < other.masklen_ then operator_shl_eq self other else false

/-- Model of `INET::operator>>`. -/
def operator_shr (self other : INET) : Bool := operator_shl other self

/-- Model of `INET::operator>>=`. -/
def operator_shr_eq (self other : INET) : Bool := operator_shl_eq other self

end INET

/-! ## Texts and the address library -/

/-- A `std::string`, as the sequence of its characters. -/
abbrev std_string := List Char

/-- The parts of a text between occurrences of `sep`. -/
def split_on (sep : Char) : List Char → List (List Char)
  | [] => [[]]
  | c :: cs =>
    if c = sep then [] :: split_on sep cs
    else
      match split_on sep cs with
      | [] => [[c]]
      | p :: ps => (c :: p) :: ps

/-- Modelled from the spec: `address_v4::to_bytes` belongs to the address
library; the four bytes of the address, most significant first. -/
def address_v4_to_bytes (a : Nat) : List Nat :=
  [a / 2 ^ 24 % 256, a / 2 ^ 16 % 256, a / 2 ^ 8 % 256, a % 256]

/-- Modelled from the spec: the constructor `address_v4(bytes_type)` belongs
to the address library; the address with the given bytes, most significant
first. -/
def address_v4_of_bytes (bs : List Nat) : Nat :=
  bs.foldl (fun acc b => acc * 256 + b % 256) 0

/-- Modelled from the spec: `address_v4::to_string` belongs to the address
library; section 6 of the specification gives the text as four decimal octets
separated by dots. -/
def address_v4_to_string (a : Nat) : std_string :=
  Nat.toDigits 10 (a / 2 ^ 24 % 256) ++ '.' ::
    (Nat.toDigits 10 (a / 2 ^ 16 % 256) ++ '.' ::
      (Nat.toDigits 10 (a / 2 ^ 8 % 256) ++ '.' :: Nat.toDigits 10 (a % 256)))

/-- Value of a decimal digit. -/
def digit_value (c : Char) : Option Nat :=
  if 48 ≤ c.toNat ∧ c.toNat ≤ 57 then some (c.toNat - 48) else none

/-- Values of the decimal digits of a text; `none` when a character is no digit. -/
def digit_values : List Char → Option (List Nat)
  | [] => some []
  | c :: cs =>
    match digit_value c, digit_values cs with
    | some d, some ds => some (d :: ds)
    | _, _ => none

/-- One decimal octet: one to three digits, no leading zero before another
digit, at most 255. -/
def parse_octet (l : List Char) : Option Nat :=
  match digit_values l with
  | some [d0] => some d0
  | some [d1, d0] => if d1 = 0 then none else some (d1 * 10 + d0)
  | some [d2, d1, d0] =>
    if d2 = 0 ∨ d2 * 100 + d1 * 10 + d0 > 255 then none else some (d2 * 100 + d1 * 10 + d0)
  | _ => none

/-- Modelled from the spec: `address_v4::from_string` belongs to the address
library; a text parses when it is four decimal octets separated by dots, and
`none` is the parse failure reported through the error code. -/
def address_v4_from_string (s : std_string) : Option Nat :=
  match split_on '.' s with
  | [p0, p1, p2, p3] =>
    match parse_octet p0, parse_octet p1, parse_octet p2, parse_octet p3 with
    | some b0, some b1, some b2, some b3 => some (address_v4_of_bytes [b0, b1, b2, b3])
    | _, _, _, _ => none
  | _ => none

/-- Value of a hexadecimal digit, in either case. -/
def hex_value (c : Char) : Option Nat :=
  if 48 ≤ c.toNat ∧ c.toNat ≤ 57 then some (c.toNat - 48)
  else if 97 ≤ c.toNat ∧ c.toNat ≤ 102 then some (c.toNat - 87)
  else if 65 ≤ c.toNat ∧ c.toNat ≤ 70 then some (c.toNat - 55)
  else none

/-- Values of the hexadecimal digits of a text; `none` when a character is no such digit. -/
def hex_values : List Char → Option (List Nat)
  | [] => some []
  | c :: cs =>
    match hex_value c, hex_values cs with
    | some d, some ds => some (d :: ds)
    | _, _ => none

/-- One group of an IPv6 text, one to four hexadecimal digits, as its two bytes. -/
def parse_group (l : List Char) : Option (List Nat) :=
  match hex_values l with
  | some ds =>
    if ds.length = 0 ∨ ds.length > 4 then none
    else
      let v := ds.foldl (fun acc d => acc * 16 + d) 0
      some [v / 256, v % 256]
  | none => none

/-- The bytes of a list of groups; `none` when a group does not parse. -/
def parse_groups : List (List Char) → Option (List Nat)
  | [] => some []
  | g :: gs =>
    match parse_group g, parse_groups gs with
    | some b, some bs => some (b ++ bs)
    | _, _ => none

/-- Modelled from the spec: `address_v6::from_string` belongs to the address
library.  The model covers the texts of eight groups separated by colons,
which are the ones `ARPA::to_ip_string` builds from a reverse name of 32
labels; every other text is shown as a parse failure. -/
def address_v6_from_string (s : std_string) : Option bytes_type :=
  match parse_groups (split_on ':' s) with
  | some bs => if bs.length = 16 then some (bytes_of_list bs) else none
  | none => none

/-! ## `ARPA` -/

/-- The table `hex_key`, its sixteen characters in the order the source lists
them: `e` comes before `d`. -/
def hex_key : List Char := "0123456789abcedf".toList

/-- The data member of `ARPA`. -/
structure ARPA where
  arpa_ : std_string

namespace ARPA

/-- One iteration of the loop `for (auto b : addr)` in `ARPA(const INET &)`:
four insertions at the front of `str`. -/
def insert_byte (str : std_string) (b : Nat) : std_string :=
  let s1 := hex_key.getD ((b &&& 0xF0) >>> 4) '?' :: str
  let s2 := '.' :: s1
  let s3 := hex_key.getD (b &&& 0x0F) '?' :: s2
  '.' :: s3

/-- Constructor `ARPA(const INET &)`. -/
def of_INET (cidr : INET) : ARPA :=
  if cidr.type_ = .ipv4 then
    let addr := (address_v4_to_bytes cidr.ipv4_address_).reverse
    ⟨address_v4_to_string (address_v4_of_bytes addr)⟩
  else
    let addr := (List.range 16).map (load cidr.ipv6_address_)
    let str := addr.foldl insert_byte []
    ⟨str.drop 1⟩

/-- The loop `for (auto i = arpa_.size() - 1; i > 0; i--)` of `to_ip_string`,
started at `i`; returns `str` and `ctr`. -/
def to_ip_string_loop (arpa : std_string) : Nat → std_string → Nat → std_string × Nat
  | 0, str, ctr => (str, ctr)
  | i + 1, str, ctr =>
    let c := arpa.getD (i + 1) '?'
    if c ≠ '.' then
      if ctr + 1 ≥ 4 then to_ip_string_loop arpa i (str ++ [c] ++ [':']) 0
      else to_ip_string_loop arpa i (str ++ [c]) (ctr + 1)
    else to_ip_string_loop arpa i str ctr

/-- Model of `ARPA::to_ip_string`: the address whose canonical text is
returned.  An empty `arpa_` makes the loop start at index `2^64 - 1`. -/
def to_ip_string (self : ARPA) : Except Fault address :=
  match address_v4_from_string self.arpa_ with
  | some addr_v4 =>
    .ok (.v4 (address_v4_of_bytes (address_v4_to_bytes addr_v4).reverse))
  | none =>
    match self.arpa_ with
    | [] => .error (.out_of_bounds (2 ^ 64 - 1))
    | c0 :: _ =>
      let p := to_ip_string_loop self.arpa_ (self.arpa_.length - 1) [] 0
      match address_v6_from_string (p.1 ++ [c0]) with
      | some a => .ok (.v6 a)
      | none => .error .system_error

/-- Model of `ARPA::get`. -/
def get (self : ARPA) : std_string := self.arpa_

end ARPA

/-- Model of `INET::to_arpa`. -/
def INET.to_arpa (self : INET) : std_string := (ARPA.of_INET self).get

/-! ## Member calls together with the object they leave -/

/-- The object as a member call leaves it, and the exception thrown, if any. -/
structure Call where
  self : INET
  thrown : Option Fault

namespace Call

/-- The statements after a call run only when it threw nothing. -/
def andThen (c : Call) (f : INET → Call) : Call :=
  match c.thrown with
  | none => f c.self
  | some _ => c

/-- The value of a call and nothing else: the object left, or the exception. -/
def toExcept (c : Call) : Except Fault INET :=
  match c.thrown with
  | none => .ok c.self
  | some e => .error e

end Call

namespace INET

/-- Model of `INET::init_mask_`, keeping the object when it throws: both
`throw` statements come before any member is assigned. -/
def init_mask_call (self : INET) (masklen : Nat) : Call :=
  if self.type_ = .ipv4 then
    if masklen > 32 then ⟨self, some .length_error⟩
    else
      let m0 := get_ipv4_bradcast
      let m1 := (m0 <<< sub64 32 masklen) % 2 ^ 64
      let m2 := m1 &&& get_ipv4_bradcast
      ⟨{ self with ipv4_mask_ := m2 }, none⟩
  else
    if masklen > 128 then ⟨self, some .length_error⟩
    else ⟨{ self with ipv6_mask_ := array_ipv6_.make_mask masklen }, none⟩

/-- Model of `INET::set_ip4_`, keeping the object when it throws. -/
def set_ip4_call (self : INET) (ip : Nat) (masklen : Nat) : Call :=
  init_mask_call { self with type_ := .ipv4, ipv4_address_ := ip, masklen_ := masklen } masklen

/-- Model of `INET::set_ip6_`, keeping the object when it throws. -/
def set_ip6_call (self : INET) (ip : bytes_type) (masklen : Nat) : Call :=
  init_mask_call { self with type_ := .ipv6, ipv6_address_ := ip, masklen_ := masklen } masklen

/-- Model of `INET::set_equal_to_(const address_v4 &)`, keeping the object when it throws. -/
def set_equal_to_v4_call (self : INET) (ip : Nat) : Call :=
  (set_ip4_call self ip 32).andThen fun s =>
    ⟨{ s with ipv4_mask_ := get_ipv4_bradcast }, none⟩

/-- Model of `INET::set_equal_to_(const address_v6 &)`, keeping the object when it throws. -/
def set_equal_to_v6_call (self : INET) (ip : bytes_type) : Call :=
  (set_ip6_call self ip 128).andThen fun s =>
    ⟨{ s with ipv6_mask_ := array_ipv6_.make_mask s.masklen_ }, none⟩

/-- Model of `INET::set_equal_to_(const address &)`, keeping the object when it throws. -/
def set_equal_to_address_call (self : INET) (ip : address) : Call :=
  match ip with
  | .v4 a => set_equal_to_v4_call self a
  | .v6 b => set_equal_to_v6_call self b

/-- Model of `INET::set_equal_to_(const std::string &)`, keeping the object
when it throws; `ip` and `suffix` are as in `set_equal_to_string`. -/
def set_equal_to_string_call (self : INET) (ip : address) (suffix : Option Nat) : Call :=
  match suffix with
  | some n =>
    (set_equal_to_address_call self ip).andThen fun s =>
      init_mask_call { s with masklen_ := n } n
  | none => set_equal_to_address_call self ip

/-- Model of `INET::operator=(const std::string &)`. -/
def operator_assign_string (self : INET) (ip : address) (suffix : Option Nat) : Call :=
  set_equal_to_string_call self ip suffix

/-- Model of `INET::set_subnet`, keeping the object when it throws. -/
def set_subnet_call (self : INET) (masklen : Nat) : Call :=
  (init_mask_call self masklen).andThen fun s => ⟨{ s with masklen_ := masklen }, none⟩

/-- The call `INET(ip)` of the constructor `INET(const address_v4 &, uint64_t subnet = 32)`. -/
def of_v4_default (ip : Nat) : Except Fault INET := of_v4 ip 32

/-- The call `INET(ip)` of the constructor `INET(const address_v6 &, uint64_t subnet = 128)`. -/
def of_v6_default (ip : bytes_type) : Except Fault INET := of_v6 ip 128

/-- Number of bits of an address of the kind of `self`. -/
def bit_width (self : INET) : Nat := if self.type_ = .ipv4 then 32 else 128

end INET

/-! ## Reference notions used in the statements -/

/-- Lexicographic order on sixteen bytes, most significant byte first: the
first position where the arrays differ holds a smaller byte on the left. -/
def lex_lt (a b : bytes_type) : Prop :=
  ∃ i : Fin 16, (∀ j : Fin 16, j < i → a j = b j) ∧ a i < b i

/-- The canonical mask byte at index `i` for prefix length `n`: `0xFF` inside
the prefix, the partial pattern at the boundary byte, zero after it. -/
def canonical_mask_byte (n i : Nat) : Nat :=
  if i < n / 8 then 0xFF
  else if i = n / 8 ∧ n % 8 > 0 then (0xFF <<< (8 - n % 8)) % 256
  else 0


/-! ## Concrete values used below -/

/-- The network `1.2.3.4/24`, built by `INET(const std::string &)`. -/
def net_1_2_3_4_24 : Except Fault INET := INET.of_string (.v4 0x01020304) (some 24)

/-- The network `1.2.3.200/32`, built by `INET(const std::string &)`. -/
def net_1_2_3_200_32 : Except Fault INET := INET.of_string (.v4 0x010203C8) (some 32)

/-- The network `1.2.4.1/32`, built by `INET(const std::string &)`. -/
def net_1_2_4_1_32 : Except Fault INET := INET.of_string (.v4 0x01020401) (some 32)

/-- The mask `ffff:ffff:ffff:ffff:ffff:ffff:ffff:ffff`. -/
def all_ones : bytes_type := fun _ => 0xFF

/-- The mask `ff00::`. -/
def first_byte_only : bytes_type := bytes_of_list [0xFF]

/-- The network `10.0.0.0/8`, built by `INET(const std::string &)`. -/
def net_10_8 : Except Fault INET := INET.of_string (.v4 0x0A000000) (some 8)

/-- The network `10.0.0.0/24`, built by `INET(const std::string &)`. -/
def net_10_24 : Except Fault INET := INET.of_string (.v4 0x0A000000) (some 24)

/-- The address `2001:db8::1`. -/
def addr_2001_db8_1 : bytes_type :=
  bytes_of_list [0x20, 0x01, 0x0d, 0xb8, 0, 0, 0, 0, 0, 0, 0, 0, 0, 0, 0, 1]

/-- The address `2001:eb8::1`. -/
def addr_2001_eb8_1 : bytes_type :=
  bytes_of_list [0x20, 0x01, 0x0e, 0xb8, 0, 0, 0, 0, 0, 0, 0, 0, 0, 0, 0, 1]

/-- The object that `INET(address_v4 1.2.3.4)` constructs. -/
def host_1_2_3_4 : INET := ⟨.ipv4, 0x01020304, 0xFFFFFFFF, fun _ => 0, fun _ => 0, 32⟩

/-- The object that `INET(address_v6 2001:db8::1)` constructs. -/
def host_2001_db8_1 : INET :=
  ⟨.ipv6, 0, 0, addr_2001_db8_1, array_ipv6_.make_mask 128, 128⟩

/-- The state of the object `v` after `INET v("10.0.0.0/8"); v = "1.2.3.4/33";`,
the exception of the assignment being caught: the exception and the members
`type_`, `ipv4_address_`, `masklen_`, `ipv4_mask_`. -/
def after_failed_assignment :
    Except Fault (Option Fault × INET_Type × Nat × Nat × Nat) := do
  let v ← net_10_8
  let c := v.operator_assign_string (.v4 0x01020304) (some 33)
  pure (c.thrown, c.self.type_, c.self.ipv4_address_, c.self.masklen_, c.self.ipv4_mask_)

/-- The calls `INET v(addr, n); v.set_subnet_string(v.get_subnet_string());
return v.get_subnet();`, the text returned by `get_subnet_string` being
parsed back to the address it was formatted from. -/
def mask_round_trip_v4 (addr n : Nat) : Except Fault Nat := do
  let s ← INET.of_v4 addr n
  let t ← s.set_subnet_string s.get_subnet_string
  pure t.get_subnet

/-! ## Lemmas on the mask helpers -/

theorem sub64_of_le (a b : Nat) (hb : b ≤ a) (ha : a < 2 ^ 64) : sub64 a b = a - b := by
  unfold sub64
  have h : a + 2 ^ 64 - b = (a - b) + 2 ^ 64 := by omega
  rw [h, Nat.add_mod_right]
  exact Nat.mod_eq_of_lt (by omega)

theorem init_mask_v4_ok (v : INET) (n : Nat) (hv : v.type_ = .ipv4) (hn : n ≤ 32) :
    v.init_mask_ n = .ok { v with ipv4_mask_ := (0xFFFFFFFF <<< (32 - n)) % 2 ^ 32 } := by
  unfold INET.init_mask_
  have h32 : ¬ n > 32 := by omega
  simp only [hv, if_true, h32, if_false, get_ipv4_bradcast]
  rw [sub64_of_le 32 n hn (by norm_num)]
  have hand : ∀ x : Nat, x &&& 0xFFFFFFFF = x % 2 ^ 32 := fun x =>
    Nat.and_pow_two_sub_one_eq_mod x 32
  rw [hand, Nat.mod_mod_of_dvd _ (by norm_num : 2 ^ 32 ∣ 2 ^ 64)]

theorem set_equal_to_v4_ok (v : INET) (ip : Nat) :
    v.set_equal_to_v4 ip =
      .ok { v with type_ := .ipv4, ipv4_address_ := ip, masklen_ := 32,
                   ipv4_mask_ := 0xFFFFFFFF } := by
  unfold INET.set_equal_to_v4 INET.set_ip4_
  rw [init_mask_v4_ok _ 32 rfl (le_refl 32)]
  rfl

theorem of_v4_ok (ip n : Nat) (hn : n ≤ 32) :
    INET.of_v4 ip n =
      .ok ⟨.ipv4, ip, (0xFFFFFFFF <<< (32 - n)) % 2 ^ 32, fun _ => 0, fun _ => 0, n⟩ := by
  unfold INET.of_v4
  rw [set_equal_to_v4_ok]
  show INET.init_mask_ ⟨.ipv4, ip, 0xFFFFFFFF, fun _ => 0, fun _ => 0, n⟩ n = _
  rw [init_mask_v4_ok _ n rfl hn]

theorem of_address_v4_eq (ip n : Nat) : INET.of_address (.v4 ip) n = INET.of_v4 ip n := rfl

theorem of_string_v4_eq (ip n : Nat) : INET.of_string (.v4 ip) (some n) = INET.of_v4 ip n := rfl

theorem set_subnet_v4_ok (v : INET) (n : Nat) (hv : v.type_ = .ipv4) (hn : n ≤ 32) :
    v.set_subnet n =
      .ok { v with ipv4_mask_ := (0xFFFFFFFF <<< (32 - n)) % 2 ^ 32, masklen_ := n } := by
  unfold INET.set_subnet
  rw [init_mask_v4_ok v n hv hn]
  rfl

theorem top_bits_of_shift (n : Nat) (hn : n ≤ 32) (i : Nat) (hi : i < 32) :
    ((0xFFFFFFFF <<< (32 - n)) % 2 ^ 32).testBit i = decide (32 - n ≤ i) := by
  have h : ∀ n, n < 33 → ∀ i, i < 32 →
      ((0xFFFFFFFF <<< (32 - n)) % 2 ^ 32).testBit i = decide (32 - n ≤ i) := by decide
  exact h n (by omega) i hi

theorem make_mask_loop_writes_mono (i masklen : Nat) (r : MaskRun) (x : Nat)
    (hx : x ∈ r.writes) : x ∈ (array_ipv6_.make_mask_loop i masklen r).2.writes := by
  induction i generalizing masklen r with
  | zero => simpa [array_ipv6_.make_mask_loop] using hx
  | succ k ih =>
    unfold array_ipv6_.make_mask_loop
    split
    · exact ih _ _ (by simp [hx])
    · simp [hx]

theorem make_mask_run_writes_16 (masklen : Nat) :
    16 ∈ (array_ipv6_.make_mask_run masklen).writes := by
  have h : 16 ∈ (array_ipv6_.make_mask_loop 16 masklen ⟨fun _ => 0xFF, []⟩).2.writes := by
    show 16 ∈ (array_ipv6_.make_mask_loop (15 + 1) masklen ⟨fun _ => 0xFF, []⟩).2.writes
    unfold array_ipv6_.make_mask_loop
    split
    · exact make_mask_loop_writes_mono _ _ _ _ (by simp)
    · simp
  unfold array_ipv6_.make_mask_run
  simp only []
  split <;> simp [h]

theorem floorLog2Aux_eq_log (fuel x : Nat) (h : x < 2 ^ fuel) :
    floorLog2Aux fuel x = Nat.log 2 x := by
  induction fuel generalizing x with
  | zero =>
    have hx : x = 0 := by simpa using h
    subst hx
    simp [floorLog2Aux]
  | succ k ih =>
    rw [floorLog2Aux]
    split
    · rename_i h2
      exact (Nat.log_of_lt h2).symm
    · rename_i h2
      have hk : x / 2 < 2 ^ k := by
        rw [pow_succ] at h
        omega
      have hx : 2 ≤ x := by omega
      rw [ih (x / 2) hk]
      exact (Nat.log_of_one_lt_of_le (by norm_num) hx).symm

/-- On 64-bit values `floorLog2` is the integer logarithm to base 2. -/
theorem floorLog2_eq_log (x : Nat) (h : x < 2 ^ 64) : floorLog2 x = Nat.log 2 x :=
  floorLog2Aux_eq_log 64 x h

/-- What `operator>>=` computes on two IPv4 networks: the prefix-length test
is `other.masklen_ <= masklen_`. -/
theorem operator_shr_eq_v4_iff (a b : INET) (ha : a.type_ = .ipv4) (hb : b.type_ = .ipv4) :
    a.operator_shr_eq b = true ↔
      b.masklen_ ≤ a.masklen_
      ∧ (b.ipv4_address_ &&& a.ipv4_mask_) = (a.ipv4_address_ &&& a.ipv4_mask_) := by
  unfold INET.operator_shr_eq INET.operator_shl_eq
  by_cases hl : b.masklen_ ≤ a.masklen_ <;> simp [ha, hb, hl]

/-! ## Claims -/

/-- Claim C1, at the inputs the claim names: `INET("1.2.3.4/24") >>= INET("1.2.3.200/32")`
evaluates to false (the claim has true), because `operator<<=` asks for
`masklen_ <= other.masklen_` on the contained side; `INET("1.2.3.4/24") >>=
INET("1.2.4.1/32")` is false as well, and the reversed call
`INET("1.2.3.200/32") >>= INET("1.2.3.4/24")` is false too. -/
theorem contains_host_of_slash24_evaluates_false :
    (do let a ← net_1_2_3_4_24
        let b ← net_1_2_3_200_32
        pure (a.operator_shr_eq b) : Except Fault Bool) = .ok false
    ∧ (do let a ← net_1_2_3_4_24
          let b ← net_1_2_4_1_32
          pure (a.operator_shr_eq b) : Except Fault Bool) = .ok false
    ∧ (do let a ← net_1_2_3_4_24
          let b ← net_1_2_3_200_32
          pure (b.operator_shr_eq a) : Except Fault Bool) = .ok false := by
  decide

/-- Claim C2: for `n ≤ 32` the constructors `INET(address_v4, n)` and
`INET(address, n)` and the call `set_subnet(n)` on an IPv4 network succeed and
store the mask `(0xFFFFFFFF << (32 - n)) mod 2^32`; that value is below `2^32`,
its bit `i` (for `i < 32`) is set exactly when `i ≥ 32 - n`, and it is 0 for
`n = 0`. -/
theorem ipv4_mask_is_top_bits (addr n : Nat) (v : INET) (hv : v.type_ = .ipv4)
    (hn : n ≤ 32) :
    Except.map INET.ipv4_mask_ (INET.of_v4 addr n)
        = .ok ((0xFFFFFFFF <<< (32 - n)) % 2 ^ 32)
    ∧ Except.map INET.ipv4_mask_ (INET.of_address (.v4 addr) n)
        = .ok ((0xFFFFFFFF <<< (32 - n)) % 2 ^ 32)
    ∧ Except.map INET.ipv4_mask_ (v.set_subnet n)
        = .ok ((0xFFFFFFFF <<< (32 - n)) % 2 ^ 32)
    ∧ (0xFFFFFFFF <<< (32 - n)) % 2 ^ 32 < 2 ^ 32
    ∧ (∀ i, i < 32 → ((0xFFFFFFFF <<< (32 - n)) % 2 ^ 32).testBit i = decide (32 - n ≤ i))
    ∧ (n = 0 → Except.map INET.ipv4_mask_ (INET.of_v4 addr n) = .ok 0) := by
  refine ⟨?_, ?_, ?_, Nat.mod_lt _ (by norm_num), top_bits_of_shift n hn, ?_⟩
  · rw [of_v4_ok addr n hn]; rfl
  · rw [of_address_v4_eq, of_v4_ok addr n hn]; rfl
  · rw [set_subnet_v4_ok v n hv hn]; rfl
  · intro h0
    subst h0
    rw [of_v4_ok addr 0 (by norm_num)]
    rfl

/-- Claim C2 at `1.2.3.4` with `n = 24`, `set_subnet` being called on the blank object. -/
theorem ipv4_mask_is_top_bits_witness :
    Except.map INET.ipv4_mask_ (INET.of_v4 0x01020304 24)
        = .ok ((0xFFFFFFFF <<< (32 - 24)) % 2 ^ 32)
    ∧ Except.map INET.ipv4_mask_ (INET.of_address (.v4 0x01020304) 24)
        = .ok ((0xFFFFFFFF <<< (32 - 24)) % 2 ^ 32)
    ∧ Except.map INET.ipv4_mask_ (INET.blank.set_subnet 24)
        = .ok ((0xFFFFFFFF <<< (32 - 24)) % 2 ^ 32)
    ∧ (0xFFFFFFFF <<< (32 - 24)) % 2 ^ 32 < 2 ^ 32
    ∧ (∀ i, i < 32 →
        ((0xFFFFFFFF <<< (32 - 24)) % 2 ^ 32).testBit i = decide (32 - 24 ≤ i))
    ∧ (24 = 0 → Except.map INET.ipv4_mask_ (INET.of_v4 0x01020304 24) = .ok 0) :=
  ipv4_mask_is_top_bits 0x01020304 24 INET.blank rfl (by decide)

/-- Claim C3, evaluated: every run of `make_mask` stores to `mask[16]`, one
past the last byte; `make_mask(0)` returns sixteen bytes `0xFF` where the
canonical mask is all zero, and `make_mask(128)` returns `ff00::` where the
canonical mask is all ones. -/
theorem make_mask_stores_past_the_end :
    (∀ n, 16 ∈ (array_ipv6_.make_mask_run n).writes)
    ∧ (array_ipv6_.make_mask_run 0).writes = [16, 0]
    ∧ array_ipv6_.make_mask 0 = all_ones
    ∧ (∀ i : Fin 16, canonical_mask_byte 0 i = 0)
    ∧ array_ipv6_.make_mask 128 = first_byte_only
    ∧ (∀ i : Fin 16, canonical_mask_byte 128 i = 0xFF) := by
  refine ⟨make_mask_run_writes_16, ?_, ?_, ?_, ?_, ?_⟩ <;> decide

theorem mask_round_trip_v4_eq_31 (addr n : Nat) (h1 : 1 ≤ n) (hn : n ≤ 32) :
    mask_round_trip_v4 addr n = .ok 31 := by
  unfold mask_round_trip_v4
  rw [of_v4_ok addr n hn]
  have hlog : ∀ k, 1 ≤ k → k < 33 →
      (0xFFFFFFFF <<< (32 - k)) % 2 ^ 32 ≠ 0
      ∧ floorLog2 ((0xFFFFFFFF <<< (32 - k)) % 2 ^ 32) = 31 := by decide
  obtain ⟨h0, h31⟩ := hlog n h1 (by omega)
  simp only [bind, Except.bind, pure, Except.pure, INET.get_subnet_string,
    INET.set_subnet_string, INET.get_subnet, if_true, h0, if_false, h31]

theorem get_masklen_run_closed_form (mask : bytes_type) (fuel : Nat) :
    array_ipv6_.get_masklen_run (fuel + 2) mask =
      if mask 0 = 0xFF then ⟨[0, 2 ^ 64 - 1], .error (.out_of_bounds (2 ^ 64 - 1))⟩
      else if mask 0 = 0 then ⟨[0], .error .undefined_conversion⟩
      else ⟨[0], .ok (floorLog2 (mask 0) % 2 ^ 64)⟩ := by
  unfold array_ipv6_.get_masklen_run
  show array_ipv6_.get_masklen_loop mask ((fuel + 1) + 1) 0 0 [] = _
  rw [array_ipv6_.get_masklen_loop]
  by_cases h : mask 0 = 0xFF
  · have h' : mask ⟨0, by norm_num⟩ = 0xFF := h
    simp [h, h', array_ipv6_.mask_size, sub64, array_ipv6_.get_masklen_loop]
  · have h' : ¬ mask ⟨0, by norm_num⟩ = 0xFF := h
    simp [h, array_ipv6_.mask_size, add64]

theorem get_masklen_run_fuel (mask : bytes_type) (fuel : Nat) :
    array_ipv6_.get_masklen_run (fuel + 2) mask = array_ipv6_.get_masklen_run 2 mask := by
  rw [get_masklen_run_closed_form mask fuel]
  exact (get_masklen_run_closed_form mask 0).symm

/-- Claim C4, evaluated: `INET(1.2.3.4, 24)` followed by
`set_subnet_string(get_subnet_string())` leaves `get_subnet() = 31`, not 24;
the same holds from prefix length 32, and from prefix length 0 the mask is 0
and `log2(0)` is converted to an unsigned integer. -/
theorem mask_round_trip_v4_loses_prefix :
    mask_round_trip_v4 0x01020304 24 = .ok 31
    ∧ mask_round_trip_v4 0x01020304 32 = .ok 31
    ∧ mask_round_trip_v4 0x01020304 0 = .error .undefined_conversion := by
  decide

/-- Claim C5, evaluated: `get_masklen(make_mask(1))` returns 7, and among the
prefix lengths `0..128` the round trip returns its input for `n = 7` only. -/
theorem get_masklen_make_mask_only_7 :
    array_ipv6_.get_masklen (array_ipv6_.make_mask 1) = .ok 7
    ∧ array_ipv6_.get_masklen (array_ipv6_.make_mask 128)
        = .error (.out_of_bounds (2 ^ 64 - 1))
    ∧ (∀ n, n < 129 →
        (array_ipv6_.get_masklen (array_ipv6_.make_mask n) = .ok n ↔ n = 7)) := by
  decide

/-- Claim C6, evaluated on the all-ones mask: whatever bound on iterations
is allowed, the scan loads `mask[0]` and then `mask[2^64 - 1]`, because the
loop condition `mask.size()` is constant and the index is decremented from 0;
bytes 1 to 15 are not inspected. -/
theorem get_masklen_reads_outside (fuel : Nat) :
    (array_ipv6_.get_masklen_run (fuel + 2) all_ones).reads = [0, 2 ^ 64 - 1]
    ∧ (array_ipv6_.get_masklen_run (fuel + 2) all_ones).outcome
        = .error (.out_of_bounds (2 ^ 64 - 1)) := by
  rw [get_masklen_run_fuel]
  decide

/-! ## Lemmas on the comparison operators -/

theorem smaller_loop_iff (a b : bytes_type) (n i : Nat) :
    array_ipv6_.smaller_loop a b n i = true ↔
      ∃ k, i ≤ k ∧ k < i + n ∧ (∀ j, i ≤ j → j < k → load a j = load b j)
        ∧ load a k < load b k := by
  induction n generalizing i with
  | zero =>
    simp only [array_ipv6_.smaller_loop, Bool.false_eq_true, false_iff]
    rintro ⟨k, h1, h2, -, -⟩
    omega
  | succ m ih =>
    rw [array_ipv6_.smaller_loop]
    by_cases h : load a i = load b i
    · simp only [h, ne_eq, not_true_eq_false, if_false]
      rw [ih]
      constructor
      · rintro ⟨k, h1, h2, h3, h4⟩
        refine ⟨k, by omega, by omega, fun j hj1 hj2 => ?_, h4⟩
        by_cases hji : j = i
        · rw [hji]; exact h
        · exact h3 j (by omega) hj2
      · rintro ⟨k, h1, h2, h3, h4⟩
        have hki : k ≠ i := by
          rintro rfl
          omega
        exact ⟨k, by omega, by omega, fun j hj1 hj2 => h3 j (by omega) hj2, h4⟩
    · simp only [ne_eq, h, not_false_eq_true, if_true, decide_eq_true_eq]
      constructor
      · intro hlt
        exact ⟨i, le_refl i, by omega, fun j hj1 hj2 => by omega, hlt⟩
      · rintro ⟨k, h1, h2, h3, h4⟩
        by_cases hki : k = i
        · rw [hki] at h4; exact h4
        · exact absurd (h3 i (le_refl i) (by omega)) h

theorem load_of_lt (a : bytes_type) (i : Nat) (h : i < 16) : load a i = a ⟨i, h⟩ := by
  simp [load, h]

theorem smaller_iff_lex_lt (a b : bytes_type) :
    array_ipv6_.smaller a b = true ↔ lex_lt a b := by
  unfold array_ipv6_.smaller lex_lt
  rw [smaller_loop_iff]
  constructor
  · rintro ⟨k, -, h2, h3, h4⟩
    have hk : k < 16 := by omega
    refine ⟨⟨k, hk⟩, fun j hj => ?_, ?_⟩
    · have := h3 j.val (Nat.zero_le _) hj
      rwa [load_of_lt a j.val j.isLt, load_of_lt b j.val j.isLt] at this
    · rwa [load_of_lt a k hk, load_of_lt b k hk] at h4
  · rintro ⟨i, h3, h4⟩
    refine ⟨i.val, Nat.zero_le _, by omega, fun j _ hj => ?_, ?_⟩
    · have hj16 : j < 16 := by omega
      rw [load_of_lt a j hj16, load_of_lt b j hj16]
      exact h3 ⟨j, hj16⟩ hj
    · rw [load_of_lt a i.val i.isLt, load_of_lt b i.val i.isLt]
      exact h4

theorem lex_lt_iff_toLex (a b : bytes_type) : lex_lt a b ↔ toLex a < toLex b := Iff.rfl

theorem lex_lt_trans {a b c : bytes_type} (hab : lex_lt a b) (hbc : lex_lt b c) :
    lex_lt a c := by
  rw [lex_lt_iff_toLex] at *
  exact lt_trans hab hbc

theorem lex_lt_asymm {a b : bytes_type} (hab : lex_lt a b) : ¬ lex_lt b a := by
  rw [lex_lt_iff_toLex] at *
  exact lt_asymm hab

theorem lex_lt_irrefl (a : bytes_type) : ¬ lex_lt a a := by
  rw [lex_lt_iff_toLex]
  exact lt_irrefl _

theorem first_difference (a b : bytes_type) (n : Nat) (hn : n ≤ 16) :
    (∀ j : Fin 16, j.val < n → a j = b j)
    ∨ ∃ i : Fin 16, i.val < n ∧ (∀ j : Fin 16, j < i → a j = b j) ∧ a i ≠ b i := by
  induction n with
  | zero => exact Or.inl (fun j hj => absurd hj (Nat.not_lt_zero _))
  | succ m ih =>
    rcases ih (by omega) with hall | ⟨i, hi, hpre, hne⟩
    · by_cases hm : a ⟨m, by omega⟩ = b ⟨m, by omega⟩
      · left
        intro j hj
        by_cases hjm : j.val = m
        · have : j = ⟨m, by omega⟩ := Fin.ext hjm
          rw [this]; exact hm
        · exact hall j (by omega)
      · right
        exact ⟨⟨m, by omega⟩, by simp, fun j hj => hall j hj, hm⟩
    · right
      exact ⟨i, by omega, hpre, hne⟩

theorem lex_lt_total (a b : bytes_type) : lex_lt a b ∨ a = b ∨ lex_lt b a := by
  rcases first_difference a b 16 (le_refl 16) with hall | ⟨i, -, hpre, hne⟩
  · exact Or.inr (Or.inl (funext fun j => hall j j.isLt))
  · rcases Nat.lt_or_gt_of_ne hne with h | h
    · exact Or.inl ⟨i, hpre, h⟩
    · exact Or.inr (Or.inr ⟨i, fun j hj => (hpre j hj).symm, h⟩)

/-- The comparison made by `operator<`, as a proposition. -/
theorem operator_lt_iff (a b : INET) :
    a.operator_lt b = true ↔
      (a.type_ = .ipv4 ∧ b.type_ = .ipv6)
      ∨ (a.type_ = b.type_ ∧ b.masklen_ < a.masklen_)
      ∨ (a.type_ = b.type_ ∧ a.masklen_ = b.masklen_ ∧ a.type_ = .ipv4
          ∧ a.ipv4_address_ < b.ipv4_address_)
      ∨ (a.type_ = b.type_ ∧ a.masklen_ = b.masklen_ ∧ a.type_ = .ipv6
          ∧ lex_lt a.ipv6_address_ b.ipv6_address_) := by
  unfold INET.operator_lt
  rw [← smaller_iff_lex_lt]
  rcases a with ⟨ta, a4, am4, a6, am6, la⟩
  rcases b with ⟨tb, b4, bm4, b6, bm6, lb⟩
  rcases Nat.lt_trichotomy la lb with hl | hl | hl <;>
    cases ta <;> cases tb <;> simp [INET_Type.toNat, hl, Nat.ne_of_lt, Nat.ne_of_gt,
      Nat.lt_asymm, Nat.not_lt_of_lt]

/-- The comparison made by `operator==`, as a proposition. -/
theorem operator_eq_iff (a b : INET) :
    a.operator_eq b = true ↔
      a.type_ = b.type_ ∧ a.masklen_ = b.masklen_
      ∧ (a.type_ = .ipv4 → a.ipv4_address_ = b.ipv4_address_)
      ∧ (a.type_ = .ipv6 → a.ipv6_address_ = b.ipv6_address_) := by
  unfold INET.operator_eq
  rcases a with ⟨ta, a4, am4, a6, am6, la⟩
  rcases b with ⟨tb, b4, bm4, b6, bm6, lb⟩
  by_cases hl : la = lb <;> cases ta <;> cases tb <;> simp [hl]

/-- Claim C7: `a < b` is decided by kind first (true exactly for IPv4 against
IPv6), then by prefix length (true exactly when `a` has the longer one), then
by address: numeric order for IPv4, lexicographic order of the sixteen bytes
from the most significant one for IPv6. -/
theorem operator_lt_decision (a b : INET) :
    a.operator_lt b = true ↔
      (if a.type_ ≠ b.type_ then a.type_ = .ipv4 ∧ b.type_ = .ipv6
       else if a.masklen_ ≠ b.masklen_ then a.masklen_ > b.masklen_
       else if a.type_ = .ipv4 then a.ipv4_address_ < b.ipv4_address_
       else lex_lt a.ipv6_address_ b.ipv6_address_) := by
  rw [operator_lt_iff]
  rcases a with ⟨ta, a4, am4, a6, am6, la⟩
  rcases b with ⟨tb, b4, bm4, b6, bm6, lb⟩
  by_cases hl : la = lb
  · cases ta <;> cases tb <;> simp [hl]
  · cases ta <;> cases tb <;> simp [hl]

/-- Claim C8 as stated fails: `INET("10.0.0.0/8") < INET("10.0.0.0/24")`
evaluates to false. -/
theorem slash8_lt_slash24_is_false :
    (do let a ← net_10_8
        let b ← net_10_24
        pure (a.operator_lt b) : Except Fault Bool) = .ok false := by
  decide

/-- Claim C8, amended: for one IPv4 address and prefix lengths `p < q ≤ 32`,
the network with prefix length `q` compares `<` the network with prefix length
`p`, and the network with prefix length `p` does not compare `<` the one with
prefix length `q`; so `INET("10.0.0.0/24") < INET("10.0.0.0/8")` is true. -/
theorem longer_prefix_sorts_first (addr p q : Nat) (hpq : p < q) (hq : q ≤ 32) :
    (do let a ← INET.of_string (.v4 addr) (some p)
        let b ← INET.of_string (.v4 addr) (some q)
        pure (b.operator_lt a, a.operator_lt b) : Except Fault (Bool × Bool))
      = .ok (true, false) := by
  rw [of_string_v4_eq, of_string_v4_eq, of_v4_ok addr p (by omega), of_v4_ok addr q hq]
  have hne : q ≠ p := by omega
  have hne' : p ≠ q := by omega
  have hnot : ¬ q < p := by omega
  simp [bind, Except.bind, pure, Except.pure, INET.operator_lt, hne, hne', hpq, hnot]

/-- Claim C8, amended, at `10.0.0.0` with `p = 8` and `q = 24`. -/
theorem longer_prefix_sorts_first_witness :
    (do let a ← INET.of_string (.v4 0x0A000000) (some 8)
        let b ← INET.of_string (.v4 0x0A000000) (some 24)
        pure (b.operator_lt a, a.operator_lt b) : Except Fault (Bool × Bool))
      = .ok (true, false) :=
  longer_prefix_sorts_first 0x0A000000 8 24 (by decide) (by decide)

/-- Claim C9: for all networks exactly one of `a < b`, `a == b`, `b < a`
holds, and `<` is transitive. -/
theorem operator_lt_strict_total_order (a b c : INET) :
    ((a.operator_lt b = true ∨ a.operator_eq b = true ∨ b.operator_lt a = true)
      ∧ ¬ (a.operator_lt b = true ∧ a.operator_eq b = true)
      ∧ ¬ (a.operator_lt b = true ∧ b.operator_lt a = true)
      ∧ ¬ (a.operator_eq b = true ∧ b.operator_lt a = true))
    ∧ (a.operator_lt b = true → b.operator_lt c = true → a.operator_lt c = true) := by
  simp only [operator_lt_iff, operator_eq_iff]
  rcases a with ⟨ta, a4, am4, a6, am6, la⟩
  rcases b with ⟨tb, b4, bm4, b6, bm6, lb⟩
  rcases c with ⟨tc, c4, cm4, c6, cm6, lc⟩
  refine ⟨?_, ?_⟩
  · cases ta <;> cases tb <;> simp
    · omega
    · rcases lex_lt_total a6 b6 with h | h | h
      · have h1 := lex_lt_asymm h
        have h2 : a6 ≠ b6 := fun e => lex_lt_irrefl b6 (e ▸ h)
        simp [h, h1, h2]
        omega
      · subst h
        simp [lex_lt_irrefl]
        omega
      · have h1 := lex_lt_asymm h
        have h2 : a6 ≠ b6 := fun e => lex_lt_irrefl b6 (e ▸ h)
        simp [h, h1, h2]
        omega
  · cases ta <;> cases tb <;> cases tc <;> simp
    · omega
    · intro hab hbc
      rcases hab with hab | ⟨e1, hab⟩
      · rcases hbc with hbc | ⟨e2, hbc⟩
        · left; omega
        · left; omega
      · rcases hbc with hbc | ⟨e2, hbc⟩
        · left; omega
        · right; exact ⟨e1.trans e2, lex_lt_trans hab hbc⟩

/-- Claim C10: `a == b` holds exactly when kind and prefix length agree and
the address of that kind agrees, whatever the stored masks and the address
field of the other family are; `a != b` is the negation of `a == b`. -/
theorem operator_eq_decision (a b : INET) :
    (a.operator_eq b = true ↔
      a.type_ = b.type_ ∧ a.masklen_ = b.masklen_
      ∧ (if a.type_ = .ipv4 then a.ipv4_address_ = b.ipv4_address_
         else a.ipv6_address_ = b.ipv6_address_))
    ∧ a.operator_ne b = !(a.operator_eq b) := by
  refine ⟨?_, rfl⟩
  rw [operator_eq_iff]
  rcases a with ⟨ta, a4, am4, a6, am6, la⟩
  rcases b with ⟨tb, b4, bm4, b6, bm6, lb⟩
  cases ta <;> cases tb <;> simp

/-! ## Lemmas on texts and reverse names -/

theorem split_on_of_not_mem (sep : Char) (l : List Char) (h : sep ∉ l) :
    split_on sep l = [l] := by
  induction l with
  | nil => rfl
  | cons c cs ih =>
    have hc : c ≠ sep := fun e => h (e ▸ List.mem_cons_self c cs)
    have hcs : sep ∉ cs := fun hm => h (List.mem_cons_of_mem c hm)
    simp [split_on, hc, ih hcs]

theorem split_on_append (sep : Char) (l r : List Char) (h : sep ∉ l) :
    split_on sep (l ++ sep :: r) = l :: split_on sep r := by
  induction l with
  | nil => simp [split_on]
  | cons c cs ih =>
    have hc : c ≠ sep := fun e => h (e ▸ List.mem_cons_self c cs)
    have hcs : sep ∉ cs := fun hm => h (List.mem_cons_of_mem c hm)
    simp [split_on, hc, ih hcs]

set_option maxRecDepth 1000000 in
theorem octet_text (b : Nat) (hb : b < 256) :
    parse_octet (Nat.toDigits 10 b) = some b ∧ '.' ∉ Nat.toDigits 10 b := by
  have h : ∀ b, b < 256 →
      parse_octet (Nat.toDigits 10 b) = some b ∧ '.' ∉ Nat.toDigits 10 b := by decide
  exact h b hb

/-- In the model of the address library, parsing the text of an IPv4 address
gives the address back. -/
theorem address_v4_from_string_to_string (a : Nat) (h : a < 2 ^ 32) :
    address_v4_from_string (address_v4_to_string a) = some a := by
  have h0 := octet_text (a / 2 ^ 24 % 256) (Nat.mod_lt _ (by norm_num))
  have h1 := octet_text (a / 2 ^ 16 % 256) (Nat.mod_lt _ (by norm_num))
  have h2 := octet_text (a / 2 ^ 8 % 256) (Nat.mod_lt _ (by norm_num))
  have h3 := octet_text (a % 256) (Nat.mod_lt _ (by norm_num))
  unfold address_v4_from_string address_v4_to_string
  rw [split_on_append _ _ _ h0.2, split_on_append _ _ _ h1.2, split_on_append _ _ _ h2.2,
    split_on_of_not_mem _ _ h3.2]
  simp only [h0.1, h1.1, h2.1, h3.1, address_v4_of_bytes, List.foldl]
  norm_num at h ⊢
  omega

theorem to_bytes_of_octets (b0 b1 b2 b3 : Nat) (h0 : b0 < 256) (h1 : b1 < 256)
    (h2 : b2 < 256) (h3 : b3 < 256) :
    address_v4_to_bytes (b0 * 2 ^ 24 + b1 * 2 ^ 16 + b2 * 2 ^ 8 + b3) = [b0, b1, b2, b3] := by
  unfold address_v4_to_bytes
  norm_num
  refine ⟨?_, ?_, ?_, ?_⟩ <;> omega

theorem of_bytes_octets (b0 b1 b2 b3 : Nat) (h0 : b0 < 256) (h1 : b1 < 256)
    (h2 : b2 < 256) (h3 : b3 < 256) :
    address_v4_of_bytes [b0, b1, b2, b3] = b0 * 2 ^ 24 + b1 * 2 ^ 16 + b2 * 2 ^ 8 + b3 := by
  simp only [address_v4_of_bytes, List.foldl, Nat.mod_eq_of_lt h0, Nat.mod_eq_of_lt h1,
    Nat.mod_eq_of_lt h2, Nat.mod_eq_of_lt h3]
  norm_num
  omega

/-- Reversing the bytes of the address with octets `b0.b1.b2.b3` gives the
address with octets `b3.b2.b1.b0`. -/
theorem reverse_octets (b0 b1 b2 b3 : Nat) (h0 : b0 < 256) (h1 : b1 < 256)
    (h2 : b2 < 256) (h3 : b3 < 256) :
    address_v4_of_bytes (address_v4_to_bytes
        (b0 * 2 ^ 24 + b1 * 2 ^ 16 + b2 * 2 ^ 8 + b3)).reverse
      = b3 * 2 ^ 24 + b2 * 2 ^ 16 + b1 * 2 ^ 8 + b0 := by
  rw [to_bytes_of_octets b0 b1 b2 b3 h0 h1 h2 h3]
  exact of_bytes_octets b3 b2 b1 b0 h3 h2 h1 h0

theorem octets_of_address (a : Nat) (h : a < 2 ^ 32) :
    a = (a / 2 ^ 24 % 256) * 2 ^ 24 + (a / 2 ^ 16 % 256) * 2 ^ 16
      + (a / 2 ^ 8 % 256) * 2 ^ 8 + a % 256 := by
  norm_num at h ⊢
  omega

theorem octets_lt (b0 b1 b2 b3 : Nat) (h0 : b0 < 256) (h1 : b1 < 256)
    (h2 : b2 < 256) (h3 : b3 < 256) :
    b0 * 2 ^ 24 + b1 * 2 ^ 16 + b2 * 2 ^ 8 + b3 < 2 ^ 32 := by
  norm_num
  omega

theorem of_v4_host_1_2_3_4 : INET.of_v4_default 0x01020304 = .ok host_1_2_3_4 := by rfl

theorem of_v6_host_2001_db8_1 :
    INET.of_v6_default addr_2001_db8_1 = .ok host_2001_db8_1 := by rfl

/-- For every IPv6 network the reverse name has 63 characters. -/
theorem arpa_v6_length (v : INET) (hv : v.type_ = .ipv6) :
    (ARPA.of_INET v).get.length = 63 := by
  have hr : List.range 16 = [0, 1, 2, 3, 4, 5, 6, 7, 8, 9, 10, 11, 12, 13, 14, 15] := by decide
  simp [ARPA.of_INET, ARPA.get, hv, hr, ARPA.insert_byte]

/-! ## Claims on reverse names -/

/-- Claim C11, evaluated at `2001:db8::1`: the reverse name has the 32 labels
in the order the claim gives, but the label of the nibble `0xd` is `e`,
because `hex_key` holds `e` at index 13 and `d` at index 14. -/
theorem arpa_v6_swaps_d_and_e :
    Except.map (fun v => (ARPA.of_INET v).get) (INET.of_v6_default addr_2001_db8_1)
      = .ok "1.0.0.0.0.0.0.0.0.0.0.0.0.0.0.0.0.0.0.0.0.0.0.0.8.b.e.0.1.0.0.2".toList
    ∧ hex_key.getD 13 '?' = 'e'
    ∧ hex_key.getD 14 '?' = 'd' := by
  decide

/-- Claim C12, evaluated at its witness: the reverse name of `2001:db8::1`,
converted back by `to_ip_string`, is the text of `2001:eb8::1`, another
address. -/
theorem arpa_v6_round_trip_changes_address :
    (do let v ← INET.of_v6_default addr_2001_db8_1
        (ARPA.of_INET v).to_ip_string : Except Fault address) = .ok (.v6 addr_2001_eb8_1)
    ∧ addr_2001_eb8_1 ≠ addr_2001_db8_1 := by
  decide

/-- Claim C13: for an IPv4 network whose address has the octets `b0.b1.b2.b3`,
the reverse name is the decimal text of `b3`, `b2`, `b1`, `b0` joined by dots
and nothing else; `to_arpa` returns the same text. -/
theorem arpa_v4_reversed_octets (v : INET) (b0 b1 b2 b3 : Nat) (hv : v.type_ = .ipv4)
    (h0 : b0 < 256) (h1 : b1 < 256) (h2 : b2 < 256) (h3 : b3 < 256)
    (ha : v.ipv4_address_ = b0 * 2 ^ 24 + b1 * 2 ^ 16 + b2 * 2 ^ 8 + b3) :
    (ARPA.of_INET v).get
        = Nat.toDigits 10 b3 ++ '.' ::
            (Nat.toDigits 10 b2 ++ '.' :: (Nat.toDigits 10 b1 ++ '.' :: Nat.toDigits 10 b0))
    ∧ v.to_arpa = (ARPA.of_INET v).get := by
  refine ⟨?_, rfl⟩
  have hb := to_bytes_of_octets b3 b2 b1 b0 h3 h2 h1 h0
  unfold address_v4_to_bytes at hb
  simp only [List.cons.injEq, and_true] at hb
  obtain ⟨e3, e2, e1, e0⟩ := hb
  simp only [ARPA.of_INET, ARPA.get, hv, if_true, ha,
    reverse_octets b0 b1 b2 b3 h0 h1 h2 h3, address_v4_to_string, e3, e2, e1, e0]

/-- Claim C13 at `1.2.3.4`: the reverse name is `4.3.2.1`. -/
theorem arpa_v4_reversed_octets_witness :
    (ARPA.of_INET host_1_2_3_4).get = "4.3.2.1".toList
    ∧ host_1_2_3_4.to_arpa = (ARPA.of_INET host_1_2_3_4).get :=
  arpa_v4_reversed_octets host_1_2_3_4 1 2 3 4 rfl (by decide) (by decide) (by decide)
    (by decide) (by decide)

/-- Claim C14: for an IPv4 network with address `a`, `ARPA(INET).to_ip_string()`
returns the canonical text of `a`; the parser of the address library inverts
its formatter (`address_v4_from_string_to_string`). -/
theorem arpa_v4_round_trip (v : INET) (hv : v.type_ = .ipv4)
    (ha : v.ipv4_address_ < 2 ^ 32) :
    (ARPA.of_INET v).to_ip_string = .ok (.v4 v.ipv4_address_) := by
  obtain ⟨b0, b1, b2, b3, h0, h1, h2, h3, hd⟩ :
      ∃ b0 b1 b2 b3, b0 < 256 ∧ b1 < 256 ∧ b2 < 256 ∧ b3 < 256
        ∧ v.ipv4_address_ = b0 * 2 ^ 24 + b1 * 2 ^ 16 + b2 * 2 ^ 8 + b3 :=
    ⟨_, _, _, _, Nat.mod_lt _ (by norm_num), Nat.mod_lt _ (by norm_num),
      Nat.mod_lt _ (by norm_num), Nat.mod_lt _ (by norm_num),
      octets_of_address v.ipv4_address_ ha⟩
  simp only [ARPA.of_INET, hv, if_true, ARPA.to_ip_string, hd,
    reverse_octets b0 b1 b2 b3 h0 h1 h2 h3,
    address_v4_from_string_to_string _ (octets_lt b3 b2 b1 b0 h3 h2 h1 h0),
    reverse_octets b3 b2 b1 b0 h3 h2 h1 h0]

/-- Claim C14 at `1.2.3.4`, whose canonical text is `1.2.3.4`. -/
theorem arpa_v4_round_trip_witness :
    (ARPA.of_INET host_1_2_3_4).to_ip_string = .ok (.v4 0x01020304)
    ∧ address_v4_to_string 0x01020304 = "1.2.3.4".toList :=
  ⟨arpa_v4_round_trip host_1_2_3_4 rfl (by decide), by decide⟩

/-! ## Lemmas on construction and assignment -/

theorem init_mask_call_toExcept (v : INET) (n : Nat) :
    (v.init_mask_call n).toExcept = v.init_mask_ n := by
  unfold INET.init_mask_call INET.init_mask_ Call.toExcept
  by_cases hv : v.type_ = .ipv4
  · by_cases hn : n > 32 <;> simp [hv, hn]
  · by_cases hn : n > 128 <;> simp [hv, hn]

theorem set_subnet_call_toExcept (v : INET) (n : Nat) :
    (v.set_subnet_call n).toExcept = v.set_subnet n := by
  unfold INET.set_subnet_call INET.set_subnet INET.init_mask_call INET.init_mask_
    Call.toExcept Call.andThen
  by_cases hv : v.type_ = .ipv4
  · by_cases hn : n > 32 <;> simp [hv, hn, bind, Except.bind, pure, Except.pure]
  · by_cases hn : n > 128 <;> simp [hv, hn, bind, Except.bind, pure, Except.pure]

theorem set_equal_to_string_call_toExcept (v : INET) (ip : address) (suffix : Option Nat) :
    (v.set_equal_to_string_call ip suffix).toExcept = v.set_equal_to_string ip suffix := by
  cases ip with
  | v4 a =>
    cases suffix with
    | none =>
      simp [INET.set_equal_to_string_call, INET.set_equal_to_string,
        INET.set_equal_to_address_call, INET.set_equal_to_address, INET.set_equal_to_v4_call,
        INET.set_equal_to_v4, INET.set_ip4_call, INET.set_ip4_, INET.init_mask_call,
        INET.init_mask_, Call.toExcept, Call.andThen, bind, Except.bind, pure, Except.pure]
    | some n =>
      by_cases hn : n > 32 <;>
      simp [INET.set_equal_to_string_call, INET.set_equal_to_string,
        INET.set_equal_to_address_call, INET.set_equal_to_address, INET.set_equal_to_v4_call,
        INET.set_equal_to_v4, INET.set_ip4_call, INET.set_ip4_, INET.init_mask_call,
        INET.init_mask_, Call.toExcept, Call.andThen, bind, Except.bind, pure, Except.pure, hn]
  | v6 b =>
    cases suffix with
    | none =>
      simp [INET.set_equal_to_string_call, INET.set_equal_to_string,
        INET.set_equal_to_address_call, INET.set_equal_to_address, INET.set_equal_to_v6_call,
        INET.set_equal_to_v6, INET.set_ip6_call, INET.set_ip6_, INET.init_mask_call,
        INET.init_mask_, Call.toExcept, Call.andThen, bind, Except.bind, pure, Except.pure]
    | some n =>
      by_cases hn : n > 128 <;>
      simp [INET.set_equal_to_string_call, INET.set_equal_to_string,
        INET.set_equal_to_address_call, INET.set_equal_to_address, INET.set_equal_to_v6_call,
        INET.set_equal_to_v6, INET.set_ip6_call, INET.set_ip6_, INET.init_mask_call,
        INET.init_mask_, Call.toExcept, Call.andThen, bind, Except.bind, pure, Except.pure, hn]

theorem of_v4_closed_form (ip n : Nat) :
    Except.map (fun s => (s.type_, s.ipv4_address_, s.get_subnet)) (INET.of_v4 ip n)
      = if n > 32 then .error .length_error else .ok (.ipv4, ip, n) := by
  by_cases hn : n > 32 <;>
  simp [INET.of_v4, INET.set_equal_to_v4, INET.set_ip4_, INET.init_mask_, INET.blank,
    INET.get_subnet, Except.map, bind, Except.bind, pure, Except.pure, hn]

theorem of_v6_closed_form (ip : bytes_type) (n : Nat) :
    Except.map (fun s => (s.type_, s.ipv6_address_, s.get_subnet)) (INET.of_v6 ip n)
      = if n > 128 then .error .length_error else .ok (.ipv6, ip, n) := by
  by_cases hn : n > 128 <;>
  simp [INET.of_v6, INET.set_equal_to_v6, INET.set_ip6_, INET.init_mask_, INET.blank,
    INET.get_subnet, Except.map, bind, Except.bind, pure, Except.pure, hn]

theorem of_address_v6_eq (ip : bytes_type) (n : Nat) :
    INET.of_address (.v6 ip) n = INET.of_v6 ip n := rfl

/-- The body of `operator>` is the comparison `*this < other`. -/
theorem operator_gt_eq_operator_lt (a b : INET) : a.operator_gt b = a.operator_lt b := rfl

/-- With that body, `<=` and `>=` are the same function. -/
theorem operator_le_eq_operator_ge (a b : INET) : a.operator_le b = a.operator_ge b := rfl

/-! ## Claims on construction, assignment and the remaining operators -/

/-- Claim C15: each of the constructors `INET(address_v4, n)`, `INET(address_v6, n)`
and `INET(address, n)` throws `std::length_error` exactly when `n` exceeds 32
(IPv4) or 128 (IPv6), and otherwise yields a network of the kind and address
given with `get_subnet() = n`; from `1.2.3.4` with `n = 33` it throws. -/
theorem constructor_throws_iff_prefix_too_long (ip4 : Nat) (ip6 : bytes_type) (n : Nat) :
    Except.map (fun s => (s.type_, s.ipv4_address_, s.get_subnet)) (INET.of_v4 ip4 n)
      = (if n > 32 then .error .length_error else .ok (.ipv4, ip4, n))
    ∧ Except.map (fun s => (s.type_, s.ipv4_address_, s.get_subnet))
        (INET.of_address (.v4 ip4) n)
      = (if n > 32 then .error .length_error else .ok (.ipv4, ip4, n))
    ∧ Except.map (fun s => (s.type_, s.ipv6_address_, s.get_subnet)) (INET.of_v6 ip6 n)
      = (if n > 128 then .error .length_error else .ok (.ipv6, ip6, n))
    ∧ Except.map (fun s => (s.type_, s.ipv6_address_, s.get_subnet))
        (INET.of_address (.v6 ip6) n)
      = (if n > 128 then .error .length_error else .ok (.ipv6, ip6, n))
    ∧ Except.map INET.get_subnet (INET.of_v4 0x01020304 33) = .error .length_error := by
  refine ⟨of_v4_closed_form ip4 n, ?_, of_v6_closed_form ip6 n, ?_, by decide⟩
  · rw [of_address_v4_eq]; exact of_v4_closed_form ip4 n
  · rw [of_address_v6_eq]; exact of_v6_closed_form ip6 n

/-- Claim C16: a network built from an address alone has the full width as
prefix length and compares `==` with the network built with that width given:
for the typed constructors (default argument 32 or 128) and for the texts
`a` and `a/32`, `a` and `a/128`, in both orders. -/
theorem default_prefix_is_full_width (ip4 : Nat) (ip6 : bytes_type) :
    (do let x ← INET.of_v4_default ip4
        let y ← INET.of_v4 ip4 32
        pure (x.operator_eq y, x.get_subnet) : Except Fault (Bool × Nat)) = .ok (true, 32)
    ∧ (do let x ← INET.of_string (.v4 ip4) none
          let y ← INET.of_string (.v4 ip4) (some 32)
          pure (x.operator_eq y, y.operator_eq x, x.get_subnet) :
            Except Fault (Bool × Bool × Nat)) = .ok (true, true, 32)
    ∧ (do let x ← INET.of_v6_default ip6
          let y ← INET.of_v6 ip6 128
          pure (x.operator_eq y, x.get_subnet) : Except Fault (Bool × Nat)) = .ok (true, 128)
    ∧ (do let x ← INET.of_string (.v6 ip6) none
          let y ← INET.of_string (.v6 ip6) (some 128)
          pure (x.operator_eq y, y.operator_eq x, x.get_subnet) :
            Except Fault (Bool × Bool × Nat)) = .ok (true, true, 128) := by
  refine ⟨?_, ?_, ?_, ?_⟩ <;>
  simp [INET.of_v4_default, INET.of_v6_default, INET.of_string, INET.set_equal_to_string,
    INET.set_equal_to_address, INET.of_v4, INET.of_v6, INET.set_equal_to_v4,
    INET.set_equal_to_v6, INET.set_ip4_, INET.set_ip6_, INET.init_mask_, INET.blank,
    INET.get_subnet, INET.operator_eq, bind, Except.bind, pure, Except.pure]

/-- Claim C17: for two networks of different kinds the four containment
operators return false; they are total functions, so none of them throws. -/
theorem containment_across_kinds_is_false (a b : INET) (h : a.type_ ≠ b.type_) :
    a.operator_shl b = false ∧ a.operator_shl_eq b = false
    ∧ a.operator_shr b = false ∧ a.operator_shr_eq b = false := by
  have h' : b.type_ ≠ a.type_ := fun e => h e.symm
  simp [INET.operator_shl, INET.operator_shl_eq, INET.operator_shr, INET.operator_shr_eq, h, h']

/-- Claim C17 at `1.2.3.4/32` against `2001:db8::1/128`. -/
theorem containment_across_kinds_is_false_witness :
    host_1_2_3_4.operator_shl host_2001_db8_1 = false
    ∧ host_1_2_3_4.operator_shl_eq host_2001_db8_1 = false
    ∧ host_1_2_3_4.operator_shr host_2001_db8_1 = false
    ∧ host_1_2_3_4.operator_shr_eq host_2001_db8_1 = false :=
  containment_across_kinds_is_false host_1_2_3_4 host_2001_db8_1 (by decide)

/-- Claim C18: `set_subnet(n)` throws exactly when `n` exceeds the bit width of
the kind of `v`; when it throws the object is as before; when it does not,
kind and addresses are as before and `get_subnet()` returns `n`.  The call
agrees with `set_subnet` as a function of the object. -/
theorem set_subnet_validates_before_storing (v : INET) (n : Nat) :
    (v.set_subnet_call n).thrown = (if n > v.bit_width then some .length_error else none)
    ∧ (n > v.bit_width → (v.set_subnet_call n).self = v)
    ∧ (n ≤ v.bit_width →
        (v.set_subnet_call n).self.type_ = v.type_
        ∧ (v.set_subnet_call n).self.ipv4_address_ = v.ipv4_address_
        ∧ (v.set_subnet_call n).self.ipv6_address_ = v.ipv6_address_
        ∧ (v.set_subnet_call n).self.get_subnet = n)
    ∧ (v.set_subnet_call n).toExcept = v.set_subnet n := by
  refine ⟨?_, ?_, ?_, set_subnet_call_toExcept v n⟩
  · unfold INET.set_subnet_call INET.init_mask_call INET.bit_width Call.andThen
    by_cases hv : v.type_ = .ipv4
    · by_cases hn : n > 32 <;> simp [hv, hn]
    · by_cases hn : n > 128 <;> simp [hv, hn]
  · unfold INET.set_subnet_call INET.init_mask_call INET.bit_width Call.andThen
    by_cases hv : v.type_ = .ipv4
    · intro hn
      simp only [hv, if_true] at hn
      simp [hv, hn]
    · intro hn
      simp only [hv, if_false] at hn
      simp [hv, hn]
  · unfold INET.set_subnet_call INET.init_mask_call INET.bit_width Call.andThen INET.get_subnet
    by_cases hv : v.type_ = .ipv4
    · intro hn
      simp only [hv, if_true] at hn
      have hn' : ¬ n > 32 := by omega
      simp [hv, hn']
    · intro hn
      simp only [hv, if_false] at hn
      have hn' : ¬ n > 128 := by omega
      simp [hv, hn']

/-- Claim C19, evaluated: after `INET v("10.0.0.0/8")` the assignment
`v = "1.2.3.4/33"` throws `std::length_error` and leaves `v` with the address
`1.2.3.4`, `masklen_ = 33` and the mask of prefix length 32; the prefix length
exceeds the width 32. -/
theorem failed_assignment_leaves_prefix_33 :
    after_failed_assignment = .ok (some .length_error, .ipv4, 0x01020304, 33, 0xFFFFFFFF) := by
  decide

/-- Claim C20, evaluated: with `a = 10.0.0.0/24` and `b = 10.0.0.0/8`, `a > b`
is true while `b < a` is false; with the two exchanged, `a > b` is false while
`b < a` is true. -/
theorem operator_gt_disagrees_with_swapped_lt :
    (do let a ← net_10_24
        let b ← net_10_8
        pure (a.operator_gt b, b.operator_lt a) : Except Fault (Bool × Bool))
      = .ok (true, false)
    ∧ (do let a ← net_10_8
          let b ← net_10_24
          pure (a.operator_gt b, b.operator_lt a) : Except Fault (Bool × Bool))
      = .ok (false, true) := by
  decide
